import Mathlib

/-!
Verification of the BelajarGolang category/product HTTP API.

The development shallowly embeds the repository's Go code:

* `models.Category` / `models.Product` / `models.ProductInput` become Lean
  structures (`Category`, `Product`, `ProductInput`); the Go `float64` price
  is modelled as `Rat`, which agrees with `float64` ordering on all values
  occurring in the program.
* Go maps (`map[int]models.Category`, `map[int]models.Product`) are embedded
  as association lists `List (Int × α)` whose entry order records insertion
  order; the Go map assignment `m[k] = v` is `assocSet`, lookup is
  `assocFind`, and `delete(m, k)` is `assocErase`.  Go's `range` over a map
  visits keys in an unspecified (runtime-randomized) order, so iteration is
  parametrized by an order, constrained only to be a permutation of the key
  set (`IterOrder`).
* `store.CategoryStore` (the in-memory store, src/store/category_store.go)
  becomes `CatStore` with `CatStore.create`, `CatStore.update`,
  `CatStore.delete`, `CatStore.getByID`, `CatStore.getAllWith`.
* the mock product repository (the in-memory product variant) becomes
  `MockProdRepo` with the corresponding operations.
* the PostgreSQL repositories are embedded as operations on an explicit
  table state (`Db`): SQL `EXISTS`/`INSERT`/`UPDATE`/`DELETE`/`ORDER BY`
  statements become list operations on the rows.
* the HTTP handlers (`ProductHandler`, `CategoryHandler`) become pure
  functions from (method, path suffix, query value, decoded body, state) to
  an `HttpOut` response plus the successor state.  `strconv.Atoi` is
  embedded as `atoi` including sign handling and the 64-bit range check.
-/

/-- Go error values returned by the stores/repositories. -/
inductive StoreErr where
  | notFound
  | nameExists
  | categoryNotFound
deriving Repr, DecidableEq

/-- models.Category: ID, Name, Description. -/
structure Category where
  id : Int
  name : String
  description : String
deriving Repr, DecidableEq

/-- models.Product: ID, Name, Price, Stock, CategoryID, optional embedded
Category snapshot (the `category` JSON field, attached at read time). -/
structure Product where
  id : Int
  name : String
  price : Rat
  stock : Int
  categoryID : Int
  category : Option Category
deriving Repr, DecidableEq

/-- models.ProductInput: the JSON body accepted by product create/update. -/
structure ProductInput where
  name : String
  price : Rat
  stock : Int
  categoryID : Int
deriving Repr, DecidableEq

/-- models.ProductInput.ToProduct. -/
def ProductInput.toProduct (r : ProductInput) : Product :=
  { id := 0, name := r.name, price := r.price, stock := r.stock,
    categoryID := r.categoryID, category := none }

/-- Category create/update JSON body (name and description; the ID field has
JSON tag "-" and is never decoded). -/
structure CatInput where
  name : String
  description : String
deriving Repr, DecidableEq

/-! ### Association lists embedding Go maps -/

/-- Go map lookup `v, ok := m[k]`. -/
def assocFind (l : List (Int × α)) (k : Int) : Option α :=
  (l.find? (fun kv => kv.1 = k)).map (fun kv => kv.2)

/-- Go map assignment `m[k] = v`: replaces the value at an existing key,
otherwise appends a fresh entry. -/
def assocSet (l : List (Int × α)) (k : Int) (v : α) : List (Int × α) :=
  if l.any (fun kv => kv.1 = k) then
    l.map (fun kv => if kv.1 = k then (k, v) else kv)
  else
    l ++ [(k, v)]

/-- Go `delete(m, k)`. -/
def assocErase (l : List (Int × α)) (k : Int) : List (Int × α) :=
  l.filter (fun kv => kv.1 ≠ k)

/-! ### The in-memory category store (src/store/category_store.go) -/

/-- store.CategoryStore: a map from id to category plus the `nextID`
counter. -/
structure CatStore where
  categories : List (Int × Category)
  nextID : Int
deriving Repr, DecidableEq

/-- store.NewCategoryStore. -/
def CatStore.empty : CatStore :=
  { categories := [], nextID := 1 }

/-- store.CategoryStore.GetByID. -/
def CatStore.getByID (s : CatStore) (id : Int) : Except StoreErr Category :=
  match assocFind s.categories id with
  | none => .error .notFound
  | some cat => .ok cat

/-- store.CategoryStore.Create: reject if any existing category has the same
name, otherwise assign `nextID`, bump the counter and store. -/
def CatStore.create (s : CatStore) (cat : Category) :
    Except StoreErr Category × CatStore :=
  if s.categories.any (fun kv => kv.2.name = cat.name) then
    (.error .nameExists, s)
  else
    let cat' := { cat with id := s.nextID }
    (.ok cat',
      { categories := assocSet s.categories s.nextID cat',
        nextID := s.nextID + 1 })

/-- store.CategoryStore.Update: not-found if the id is absent, otherwise
overwrite the entry with the given record, forcing its ID to `id`.  No name
uniqueness check is performed. -/
def CatStore.update (s : CatStore) (id : Int) (cat : Category) :
    Except StoreErr Category × CatStore :=
  if (assocFind s.categories id).isSome then
    let cat' := { cat with id := id }
    (.ok cat', { s with categories := assocSet s.categories id cat' })
  else
    (.error .notFound, s)

/-- store.CategoryStore.Delete. -/
def CatStore.delete (s : CatStore) (id : Int) :
    Except StoreErr Unit × CatStore :=
  if (assocFind s.categories id).isSome then
    (.ok (), { s with categories := assocErase s.categories id })
  else
    (.error .notFound, s)

/-- A possible Go map iteration order over the store: any permutation of the
key set (the Go language specification leaves map iteration order
unspecified, and the runtime randomizes it). -/
def IterOrder (s : CatStore) (order : List Int) : Prop :=
  order.Perm (s.categories.map (fun kv => kv.1))

instance (s : CatStore) (order : List Int) : Decidable (IterOrder s order) :=
  inferInstanceAs (Decidable (order.Perm _))

/-- store.CategoryStore.GetAll under a given map iteration order: visit the
keys in that order and collect the values. -/
def CatStore.getAllWith (s : CatStore) (order : List Int) : List Category :=
  order.filterMap (fun k => assocFind s.categories k)

/-- The multiset of stored category values. -/
def CatStore.values (s : CatStore) : List Category :=
  s.categories.map (fun kv => kv.2)

/-- The stored category names. -/
def CatStore.names (s : CatStore) : List String :=
  s.categories.map (fun kv => kv.2.name)

/-! ### Operation sequences on the in-memory store -/

/-- One client-visible mutating operation on the category store. -/
inductive COp where
  | create (cat : Category)
  | update (id : Int) (cat : Category)
  | delete (id : Int)
deriving Repr, DecidableEq

/-- Whether the operation is an update. -/
def COp.isUpdate : COp → Bool
  | .update _ _ => true
  | _ => false

/-- Apply one operation, discarding the result value. -/
def CatStore.step (s : CatStore) : COp → CatStore
  | .create cat => (s.create cat).2
  | .update id cat => (s.update id cat).2
  | .delete id => (s.delete id).2

/-- Run a sequence of operations from a state, also collecting the trace of
identifiers returned by the successful creates. -/
def CatStore.runTrace (s : CatStore) : List COp → CatStore × List Int
  | [] => (s, [])
  | op :: ops =>
      let assigned :=
        match op with
        | .create cat =>
            match (s.create cat).1 with
            | .ok c => [c.id]
            | .error _ => []
        | _ => []
      let (s', rest) := (s.step op).runTrace ops
      (s', assigned ++ rest)

/-- Run a sequence of operations from the empty store. -/
def CatStore.run (ops : List COp) : CatStore :=
  (CatStore.empty.runTrace ops).1

/-- The identifiers handed out by the successful creates of a run. -/
def CatStore.assigned (ops : List COp) : List Int :=
  (CatStore.empty.runTrace ops).2

/-! ### The in-memory (mock) product repository -/

/-- mockProductRepository: product map, category map, `nextID` counter. -/
structure MockProdRepo where
  products : List (Int × Product)
  categories : List (Int × Category)
  nextID : Int
deriving Repr, DecidableEq

/-- Attach the category snapshot the way the mock reads do: only when the
stored CategoryID is strictly positive and that category exists. -/
def MockProdRepo.attach (m : MockProdRepo) (p : Product) : Product :=
  if p.categoryID > 0 then
    match assocFind m.categories p.categoryID with
    | some cat => { p with category := some cat }
    | none => p
  else p

/-- mockProductRepository.GetByID. -/
def MockProdRepo.getByID (m : MockProdRepo) (id : Int) :
    Except StoreErr Product :=
  match assocFind m.products id with
  | none => .error .notFound
  | some p => .ok (m.attach p)

/-- mockProductRepository.CategoryExists. -/
def MockProdRepo.categoryExists (m : MockProdRepo) (categoryID : Int) : Bool :=
  (assocFind m.categories categoryID).isSome

/-- mockProductRepository.Create: name-uniqueness check, then (only for a
strictly positive CategoryID) category-existence check, then assign
`nextID` and store. -/
def MockProdRepo.create (m : MockProdRepo) (p : Product) :
    Except StoreErr Product × MockProdRepo :=
  if m.products.any (fun kv => kv.2.name = p.name) then
    (.error .nameExists, m)
  else if p.categoryID > 0 ∧ ¬ m.categoryExists p.categoryID then
    (.error .categoryNotFound, m)
  else
    let p' := { p with id := m.nextID }
    (.ok p',
      { m with products := assocSet m.products m.nextID p',
               nextID := m.nextID + 1 })

/-- mockProductRepository.Update: category-existence check only for a
strictly positive CategoryID, then not-found check, then overwrite with the
record's ID forced to `id`.  No name uniqueness check. -/
def MockProdRepo.update (m : MockProdRepo) (id : Int) (p : Product) :
    Except StoreErr Product × MockProdRepo :=
  if (assocFind m.products id).isNone then
    (.error .notFound, m)
  else if p.categoryID > 0 ∧ ¬ m.categoryExists p.categoryID then
    (.error .categoryNotFound, m)
  else
    let p' := { p with id := id }
    (.ok p', { m with products := assocSet m.products id p' })

/-- mockProductRepository.Delete. -/
def MockProdRepo.delete (m : MockProdRepo) (id : Int) :
    Except StoreErr Unit × MockProdRepo :=
  if (assocFind m.products id).isNone then
    (.error .notFound, m)
  else
    (.ok (), { m with products := assocErase m.products id })

/-- mockProductRepository.GetByCategory: the products whose stored
CategoryID equals the filter; the snapshot is attached whenever that
category key exists, with no positivity guard. -/
def MockProdRepo.getByCategory (m : MockProdRepo) (categoryID : Int) :
    List Product :=
  (m.products.filter (fun kv => kv.2.categoryID = categoryID)).map
    (fun kv =>
      match assocFind m.categories kv.2.categoryID with
      | some cat => { kv.2 with category := some cat }
      | none => kv.2)

/-! ### The persisted (PostgreSQL) backend as explicit table state -/

/-- A row of the products table: `category_id` is a nullable column. -/
structure ProdRow where
  id : Int
  name : String
  price : Rat
  stock : Int
  categoryId : Option Int
deriving Repr, DecidableEq

/-- A row of the categories table. -/
structure CatRow where
  id : Int
  name : String
  description : String
deriving Repr, DecidableEq

/-- The relational state: both tables plus the two SERIAL sequences. -/
structure Db where
  categories : List CatRow
  products : List ProdRow
  nextCatId : Int
  nextProdId : Int
deriving Repr, DecidableEq

/-- SQL `ORDER BY id` on category rows (insertion sort by id). -/
def sortCatRows (rows : List CatRow) : List CatRow :=
  rows.insertionSort (fun a b => a.id ≤ b.id)

/-- categoryRepository.GetAll: `SELECT id, name, description FROM categories
ORDER BY id`. -/
def Db.catGetAll (db : Db) : List CatRow :=
  sortCatRows db.categories

/-- productRepository.CategoryExists: `SELECT EXISTS(SELECT 1 FROM
categories WHERE id = $1)`. -/
def Db.categoryExists (db : Db) (categoryID : Int) : Bool :=
  db.categories.any (fun c => c.id = categoryID)

/-- productRepository.Create: name-existence pre-check, category-existence
check only when CategoryID > 0, then INSERT — with the category column only
when CategoryID > 0, otherwise leaving it NULL. -/
def Db.prodCreate (db : Db) (p : ProductInput) :
    Except StoreErr ProdRow × Db :=
  if db.products.any (fun r => r.name = p.name) then
    (.error .nameExists, db)
  else if p.categoryID > 0 ∧ ¬ db.categoryExists p.categoryID then
    (.error .categoryNotFound, db)
  else
    let row : ProdRow :=
      { id := db.nextProdId, name := p.name, price := p.price,
        stock := p.stock,
        categoryId := if p.categoryID > 0 then some p.categoryID else none }
    (.ok row,
      { db with products := db.products ++ [row],
                nextProdId := db.nextProdId + 1 })

/-- productRepository.Update: category-existence check only when
CategoryID > 0; then `UPDATE products SET ... WHERE id = $n` — setting
`category_id` to the given value when it is strictly positive and to NULL
otherwise; zero rows updated means not-found. -/
def Db.prodUpdate (db : Db) (id : Int) (p : ProductInput) :
    Except StoreErr ProdRow × Db :=
  if p.categoryID > 0 ∧ ¬ db.categoryExists p.categoryID then
    (.error .categoryNotFound, db)
  else if db.products.any (fun r => r.id = id) then
    let newCat : Option Int :=
      if p.categoryID > 0 then some p.categoryID else none
    let upd := fun (r : ProdRow) =>
      if r.id = id then
        { r with name := p.name, price := p.price, stock := p.stock,
                 categoryId := newCat }
      else r
    let row : ProdRow :=
      { id := id, name := p.name, price := p.price, stock := p.stock,
        categoryId := newCat }
    (.ok row, { db with products := db.products.map upd })
  else
    (.error .notFound, db)

/-- Modelled from the spec: the persisted category delete.  The DELETE
statement itself is categoryRepository.Delete (`DELETE FROM categories WHERE
id = $1`, zero rows affected means not-found); the cascade on referencing
products comes from the products table's foreign-key declaration with
ON DELETE SET NULL, whose CREATE TABLE/ALTER TABLE migration is not among
the provided sources (the provided RunMigrations creates the products table
without a category column), so that schema effect is taken from the spec's
words: deleting a category sets referencing products' category reference to
absent. -/
def Db.catDelete (db : Db) (id : Int) : Except StoreErr Unit × Db :=
  if db.categories.any (fun c => c.id = id) then
    (.ok (),
      { db with
          categories := db.categories.filter (fun c => c.id ≠ id),
          products := db.products.map (fun r =>
            if r.categoryId = some id then { r with categoryId := none }
            else r) })
  else
    (.error .notFound, db)

/-! ### strconv.Atoi -/

/-- Accumulate a decimal digit string. -/
def digitsVal (ds : List Char) : Nat :=
  ds.foldl (fun a c => a * 10 + (c.toNat - 48)) 0

/-- strconv.Atoi: optional single leading sign, then one or more decimal
digits, rejecting the empty string, any non-digit character, and values
outside the 64-bit signed range (Go returns a non-nil range error there,
which the callers treat as a parse failure). -/
def atoi (s : String) : Option Int :=
  let cs := s.toList
  let signed : Bool × List Char :=
    match cs with
    | '+' :: t => (false, t)
    | '-' :: t => (true, t)
    | t => (false, t)
  let ds := signed.2
  if ds.isEmpty then none
  else if ds.all Char.isDigit then
    let v : Int := if signed.1 then -(digitsVal ds : Int) else (digitsVal ds : Int)
    if v < -(2 ^ 63) ∨ 2 ^ 63 - 1 < v then none else some v
  else none

/-! ### HTTP layer -/

/-- HTTP request method. -/
inductive Method where
  | get
  | post
  | put
  | delete
  | patch
deriving Repr, DecidableEq

/-- The JSON payload of a response envelope. -/
inductive Payload where
  | empty
  | category (c : Category)
  | categories (cs : List Category)
  | catRows (cs : List CatRow)
  | product (p : Product)
  | products (ps : List Product)
deriving Repr, DecidableEq

/-- The uniform response envelope: success flag, message, optional data. -/
structure Envelope where
  success : Bool
  message : String
  data : Payload
deriving Repr, DecidableEq

/-- What a handler invocation writes: whether the JSON content-type header
was set, and the status plus envelope body if anything was written at all
(`body = none` models a handler that returns without writing). -/
structure HttpOut where
  contentTypeJson : Bool
  status : Nat
  body : Option Envelope
deriving Repr, DecidableEq

/-- Build a written response. -/
def wrote (status : Nat) (success : Bool) (message : String)
    (data : Payload) : HttpOut :=
  { contentTypeJson := true, status := status,
    body := some { success := success, message := message, data := data } }

/-- sendError: status plus a failure envelope. -/
def sendError (status : Nat) (message : String) : HttpOut :=
  wrote status false message .empty

/-- methodNotAllowed: 405 "Method not allowed". -/
def methodNotAllowed : HttpOut :=
  sendError 405 "Method not allowed"

/-- The result of `json.NewDecoder(r.Body).Decode`: either a decode error or
the decoded value. -/
inductive BodyOf (α : Type) where
  | malformed
  | ok (val : α)
deriving Repr, DecidableEq

/-! ### Product handler (src/handlers/product_handler.go, final version) -/

/-- ProductHandler.Create: decode, name check, price check, stock check,
then the repository call, mapping its errors to 409/400/500. -/
def productCreate (m : MockProdRepo) (body : BodyOf ProductInput) :
    HttpOut × MockProdRepo :=
  match body with
  | .malformed => (sendError 400 "Invalid request body", m)
  | .ok input =>
    if input.name = "" then (sendError 400 "Name is required", m)
    else if input.price < 0 then (sendError 400 "Price cannot be negative", m)
    else if input.stock < 0 then (sendError 400 "Stock cannot be negative", m)
    else
      match m.create input.toProduct with
      | (.ok created, m') =>
          (wrote 201 true "Product created successfully" (.product created), m')
      | (.error .nameExists, m') =>
          (sendError 409 "Product name already exists", m')
      | (.error .categoryNotFound, m') =>
          (sendError 400 "Category not found", m')
      | (.error .notFound, m') =>
          (sendError 500 "Failed to create product", m')

/-- ProductHandler.Update: same validation ladder, then the repository
update, mapping its errors to 404/400/500. -/
def productUpdate (m : MockProdRepo) (id : Int) (body : BodyOf ProductInput) :
    HttpOut × MockProdRepo :=
  match body with
  | .malformed => (sendError 400 "Invalid request body", m)
  | .ok input =>
    if input.name = "" then (sendError 400 "Name is required", m)
    else if input.price < 0 then (sendError 400 "Price cannot be negative", m)
    else if input.stock < 0 then (sendError 400 "Stock cannot be negative", m)
    else
      match m.update id input.toProduct with
      | (.ok updated, m') =>
          (wrote 200 true "Product updated successfully" (.product updated), m')
      | (.error .notFound, m') =>
          (sendError 404 "Product not found", m')
      | (.error .categoryNotFound, m') =>
          (sendError 400 "Category not found", m')
      | (.error .nameExists, m') =>
          (sendError 500 "Failed to update product", m')

/-- ProductHandler.GetByID. -/
def productGetByID (m : MockProdRepo) (id : Int) : HttpOut :=
  match m.getByID id with
  | .ok p => wrote 200 true "Product retrieved successfully" (.product p)
  | .error _ => sendError 404 "Product not found"

/-- ProductHandler.Delete. -/
def productDelete (m : MockProdRepo) (id : Int) : HttpOut × MockProdRepo :=
  match m.delete id with
  | (.ok _, m') => (wrote 200 true "Product deleted successfully" .empty, m')
  | (.error _, m') => (sendError 404 "Product not found", m')

/-- ProductHandler.ServeHTTP: the content-type header is set first; `path`
is the remainder after stripping the resource path and a leading slash;
`catQ` is `r.URL.Query().Get("category_id")` (the empty string when the
query parameter is absent). -/
def productServe (m : MockProdRepo) (method : Method) (path : String)
    (catQ : String) (body : BodyOf ProductInput) : HttpOut × MockProdRepo :=
  if path = "" ∧ method = .get ∧ catQ ≠ "" then
    match atoi catQ with
    | none => (sendError 400 "Invalid category_id parameter", m)
    | some cid =>
        (wrote 200 true "Products retrieved successfully"
          (.products (m.getByCategory cid)), m)
  else if path = "" then
    match method with
    | .get =>
        (wrote 200 true "Products retrieved successfully"
          (.products (m.products.map (fun kv => m.attach kv.2))), m)
    | .post => productCreate m body
    | _ => (methodNotAllowed, m)
  else
    match atoi path with
    | none => (sendError 400 "Invalid product ID", m)
    | some id =>
      match method with
      | .get => (productGetByID m id, m)
      | .put => productUpdate m id body
      | .delete => productDelete m id
      | _ => (methodNotAllowed, m)

/-! ### Category handler — full version (routing with id suffix) -/

/-- CategoryHandler.Create: decode, name check, then store.Create, mapping
ErrNameExists to 409 and any other error to 500. -/
def catCreate (s : CatStore) (body : BodyOf CatInput) :
    HttpOut × CatStore :=
  match body with
  | .malformed => (sendError 400 "Invalid request body", s)
  | .ok input =>
    if input.name = "" then (sendError 400 "Name is required", s)
    else
      match s.create { id := 0, name := input.name,
                       description := input.description } with
      | (.ok created, s') =>
          (wrote 201 true "Category created successfully" (.category created), s')
      | (.error .nameExists, s') =>
          (sendError 409 "Category name already exists", s')
      | (.error _, s') =>
          (sendError 500 "Failed to create category", s')

/-- CategoryHandler.Update: decode, name check, then store.Update; any store
error is mapped to 404 "Category not found". -/
def catUpdate (s : CatStore) (id : Int) (body : BodyOf CatInput) :
    HttpOut × CatStore :=
  match body with
  | .malformed => (sendError 400 "Invalid request body", s)
  | .ok input =>
    if input.name = "" then (sendError 400 "Name is required", s)
    else
      match s.update id { id := 0, name := input.name,
                          description := input.description } with
      | (.ok updated, s') =>
          (wrote 200 true "Category updated successfully" (.category updated), s')
      | (.error _, s') =>
          (sendError 404 "Category not found", s')

/-- CategoryHandler.GetByID. -/
def catGetByID (s : CatStore) (id : Int) : HttpOut :=
  match s.getByID id with
  | .ok cat => wrote 200 true "Category retrieved successfully" (.category cat)
  | .error _ => sendError 404 "Category not found"

/-- CategoryHandler.Delete. -/
def catDelete (s : CatStore) (id : Int) : HttpOut × CatStore :=
  match s.delete id with
  | (.ok _, s') => (wrote 200 true "Category deleted successfully" .empty, s')
  | (.error _, s') => (sendError 404 "Category not found", s')

/-- CategoryHandler.ServeHTTP, full version: collection routes on an empty
remainder (GET list, POST create, otherwise 405); a non-empty remainder is
parsed with Atoi (failure: 400 "Invalid category ID") and dispatched by
method.  GetAll writes the values under a map iteration order. -/
def fullCategoryServe (s : CatStore) (method : Method) (path : String)
    (body : BodyOf CatInput) (order : List Int) : HttpOut × CatStore :=
  if path = "" then
    match method with
    | .get =>
        (wrote 200 true "Categories retrieved successfully"
          (.categories (s.getAllWith order)), s)
    | .post => catCreate s body
    | _ => (methodNotAllowed, s)
  else
    match atoi path with
    | none => (sendError 400 "Invalid category ID", s)
    | some id =>
      match method with
      | .get => (catGetByID s id, s)
      | .put => catUpdate s id body
      | .delete => catDelete s id
      | _ => (methodNotAllowed, s)

/-- CategoryHandler.ServeHTTP, early version (src/handlers/category_handler.go):
it sets the content-type header, handles only the collection routes (GET
list, otherwise 405), and on a non-empty remainder falls off the end of the
function without writing anything. -/
def earlyCategoryServe (s : CatStore) (method : Method) (path : String)
    (order : List Int) : HttpOut :=
  if path = "" then
    match method with
    | .get =>
        wrote 200 true "Categories retrieved successfully"
          (.categories (s.getAllWith order))
    | _ => methodNotAllowed
  else
    { contentTypeJson := true, status := 200, body := none }

/-! ### Concrete states used by witnesses and counterexamples -/

/-- The empty mock product repository. -/
def mock0 : MockProdRepo :=
  { products := [], categories := [], nextID := 1 }

/-- A mock product repository holding one category and no products. -/
def mockOneCat : MockProdRepo :=
  { products := [],
    categories := [(1, { id := 1, name := "Electronics", description := "E" })],
    nextID := 1 }

/-- A product input referencing category 1. -/
def inputCat1 : Product :=
  { id := 0, name := "Phone", price := 1, stock := 1, categoryID := 1,
    category := none }

/-- The store reached from empty by creating categories named A then B. -/
def twoCatStore : CatStore :=
  CatStore.run
    [.create { id := 0, name := "A", description := "" },
     .create { id := 0, name := "B", description := "" }]

/-- A small relational state: one category, two products referencing it and
one uncategorized product. -/
def dbSample : Db :=
  { categories := [{ id := 1, name := "Electronics", description := "E" }],
    products :=
      [{ id := 1, name := "Phone", price := 1, stock := 1, categoryId := some 1 },
       { id := 2, name := "Laptop", price := 2, stock := 1, categoryId := some 1 },
       { id := 3, name := "Pen", price := 1, stock := 9, categoryId := none }],
    nextCatId := 2, nextProdId := 4 }

/-! ### Reachability invariant of the in-memory category store -/

/-- Structural invariant of every reachable category store state: every
stored record's ID field equals its map key, every key is below the counter,
and the keys are pairwise distinct. -/
def StoreInv (s : CatStore) : Prop :=
  (∀ kv ∈ s.categories, kv.2.id = kv.1 ∧ kv.1 < s.nextID) ∧
  (s.categories.map (fun kv => kv.1)).Nodup

/-- A response was actually written with the JSON content type: the envelope
is present. -/
def HttpOut.written (o : HttpOut) : Prop :=
  o.contentTypeJson = true ∧ o.body.isSome = true

instance : IsTotal CatRow (fun a b => a.id ≤ b.id) :=
  ⟨fun a b => le_total a.id b.id⟩

instance : IsTrans CatRow (fun a b => a.id ≤ b.id) :=
  ⟨fun _ _ _ hab hbc => le_trans hab hbc⟩

/-- An operation sequence: create A, delete it, create B. -/
def opsCDC : List COp :=
  [.create { id := 0, name := "A", description := "" },
   .delete 1,
   .create { id := 0, name := "B", description := "" }]

/-- A product-input record with the given name, no category reference and
neutral numeric fields. -/
def pIn (nm : String) : Product :=
  { id := 0, name := nm, price := 1, stock := 1, categoryID := 0,
    category := none }

/-- The mock product repository reached from empty by creating products
named "A" then "B". -/
def twoProdRepo : MockProdRepo :=
  ((mock0.create (pIn "A")).2.create (pIn "B")).2

/-- One client-visible mutating operation on the mock product repository. -/
inductive POp where
  | create (p : Product)
  | update (id : Int) (p : Product)
  | delete (id : Int)
deriving Repr, DecidableEq

/-- Whether the product operation is an update. -/
def POp.isUpdate : POp → Bool
  | .update _ _ => true
  | _ => false

/-- Apply one product operation, discarding the result value. -/
def MockProdRepo.pstep (m : MockProdRepo) : POp → MockProdRepo
  | .create p => (m.create p).2
  | .update id p => (m.update id p).2
  | .delete id => (m.delete id).2

/-- Run a sequence of product operations from a state, collecting the trace
of identifiers returned by the successful creates. -/
def MockProdRepo.runTraceP (m : MockProdRepo) :
    List POp → MockProdRepo × List Int
  | [] => (m, [])
  | op :: ops =>
      let assigned :=
        match op with
        | .create p =>
            match (m.create p).1 with
            | .ok q => [q.id]
            | .error _ => []
        | _ => []
      let (m2, rest) := (m.pstep op).runTraceP ops
      (m2, assigned ++ rest)

/-- A freshly constructed mock product repository whose category map holds
the given (possibly seeded) categories — newMockProductRepository, followed
by direct writes into the category map as SeedCategories performs them. -/
def MockProdRepo.initWith (cats : List (Int × Category)) : MockProdRepo :=
  { products := [], categories := cats, nextID := 1 }

/-- Run a sequence of product operations from a fresh repository with the
given seeded categories. -/
def MockProdRepo.runP (cats : List (Int × Category)) (ops : List POp) :
    MockProdRepo :=
  ((MockProdRepo.initWith cats).runTraceP ops).1

/-- The identifiers handed out by the successful creates of a product
run. -/
def MockProdRepo.assignedP (cats : List (Int × Category))
    (ops : List POp) : List Int :=
  ((MockProdRepo.initWith cats).runTraceP ops).2

/-- Structural invariant of every reachable mock product repository state:
every stored record's ID field equals its map key, every key is below the
counter, and the keys are pairwise distinct. -/
def ProdInv (m : MockProdRepo) : Prop :=
  (∀ kv ∈ m.products, kv.2.id = kv.1 ∧ kv.1 < m.nextID) ∧
  (m.products.map (fun kv => kv.1)).Nodup

/-- The stored product names. -/
def MockProdRepo.prodNames (m : MockProdRepo) : List String :=
  m.products.map (fun kv => kv.2.name)

/-- A product operation sequence: create A, delete it, create B. -/
def opsPDC : List POp :=
  [.create (pIn "A"), .delete 1, .create (pIn "B")]

/-! ### Helper lemmas on the map embedding -/

theorem assocFind_cons_eq (kv : Int × α) (t : List (Int × α)) (k : Int)
    (h : kv.1 = k) : assocFind (kv :: t) k = some kv.2 := by
  simp [assocFind, List.find?, h]

theorem assocFind_cons_ne (kv : Int × α) (t : List (Int × α)) (k : Int)
    (h : ¬ kv.1 = k) : assocFind (kv :: t) k = assocFind t k := by
  simp [assocFind, List.find?, h]

theorem assocFind_map_set (l : List (Int × α)) (k : Int) (v : α) :
    assocFind (l.map (fun kv => if kv.1 = k then (k, v) else kv)) k =
      if l.any (fun kv => kv.1 = k) then some v else none := by
  induction l with
  | nil => simp [assocFind]
  | cons kv t ih =>
      by_cases hk : kv.1 = k
      · rw [List.map_cons, if_pos hk, assocFind_cons_eq _ _ _ rfl]
        simp [List.any_cons, hk]
      · rw [List.map_cons, if_neg hk, assocFind_cons_ne _ _ _ hk, ih,
          List.any_cons, decide_eq_false hk, Bool.false_or]

theorem assocFind_assocSet_self (l : List (Int × α)) (k : Int) (v : α) :
    assocFind (assocSet l k v) k = some v := by
  unfold assocSet
  by_cases h : l.any (fun kv => kv.1 = k)
  · rw [if_pos h, assocFind_map_set, if_pos h]
  · rw [if_neg h]
    have hnone : l.find? (fun kv => kv.1 = k) = none := by
      rw [List.find?_eq_none]
      intro x hx
      have := List.any_eq_false.mp (Bool.eq_false_iff.mpr h) x hx
      simpa using this
    simp [assocFind, List.find?_append, hnone, List.find?]

theorem assocSet_of_fresh (l : List (Int × α)) (k : Int) (v : α)
    (h : l.any (fun kv => kv.1 = k) = false) :
    assocSet l k v = l ++ [(k, v)] := by
  unfold assocSet
  rw [if_neg (by simp [h])]

theorem keys_assocSet_existing (l : List (Int × α)) (k : Int) (v : α) :
    (l.map (fun kv => if kv.1 = k then (k, v) else kv)).map
        (fun kv => kv.1) =
      l.map (fun kv => kv.1) := by
  induction l with
  | nil => rfl
  | cons kv t ih =>
      by_cases hk : kv.1 = k
      · simp [hk, ih]
      · simp [hk, ih]

theorem keys_filterMap_values (l : List (Int × α))
    (hnd : (l.map (fun kv => kv.1)).Nodup) :
    (l.map (fun kv => kv.1)).filterMap (fun k => assocFind l k) =
      l.map (fun kv => kv.2) := by
  induction l with
  | nil => rfl
  | cons kv t ih =>
      have hnd' : (kv.1 :: t.map (fun kv => kv.1)).Nodup := by simpa using hnd
      rcases List.nodup_cons.mp hnd' with ⟨hhead, htail⟩
      have hfind : assocFind (kv :: t) kv.1 = some kv.2 :=
        assocFind_cons_eq _ _ _ rfl
      have hcongr :
          (t.map (fun kv => kv.1)).filterMap
              (fun k => assocFind (kv :: t) k) =
            (t.map (fun kv => kv.1)).filterMap (fun k => assocFind t k) := by
        refine List.filterMap_congr ?_
        intro k hkmem
        have hne : ¬ kv.1 = k := fun he => hhead (he ▸ hkmem)
        exact assocFind_cons_ne _ _ _ hne
      rw [List.map_cons, List.filterMap_cons, hfind, hcongr, ih htail,
        List.map_cons]

/-! ### Invariant preservation for the in-memory category store -/

theorem assocFind_isSome_any (l : List (Int × α)) (k : Int) :
    (assocFind l k).isSome = l.any (fun kv => kv.1 = k) := by
  induction l with
  | nil => rfl
  | cons kv t ih =>
      by_cases hk : kv.1 = k
      · rw [assocFind_cons_eq _ _ _ hk, List.any_cons, decide_eq_true hk]
        simp
      · rw [assocFind_cons_ne _ _ _ hk, List.any_cons, decide_eq_false hk,
          Bool.false_or, ih]

theorem storeInv_empty : StoreInv CatStore.empty := by
  constructor
  · intro kv hm
    simp [CatStore.empty] at hm
  · simp [CatStore.empty]

theorem storeInv_fresh_key {s : CatStore} (h : StoreInv s) :
    s.categories.any (fun kv => kv.1 = s.nextID) = false := by
  rw [List.any_eq_false]
  intro kv hm
  have hb := (h.1 kv hm).2
  simp only [decide_eq_true_eq]
  omega

theorem create_ok_shape {s : CatStore} {cat c : Category} {s2 : CatStore}
    (h : s.create cat = (.ok c, s2)) :
    c = { cat with id := s.nextID } ∧
    s2 = { categories := assocSet s.categories s.nextID
             { cat with id := s.nextID },
           nextID := s.nextID + 1 } ∧
    s.categories.any (fun kv => kv.2.name = cat.name) = false := by
  unfold CatStore.create at h
  split at h
  · exact absurd (congrArg Prod.fst h) (by simp)
  · rename_i hname
    refine ⟨?_, ?_, Bool.eq_false_iff.mpr hname⟩
    · exact (Except.ok.inj (congrArg Prod.fst h)).symm
    · exact (congrArg Prod.snd h).symm

theorem create_error_shape {s : CatStore} {e : StoreErr} {s2 : CatStore}
    {cat : Category} (h : s.create cat = (.error e, s2)) : s2 = s := by
  unfold CatStore.create at h
  split at h
  · exact (congrArg Prod.snd h).symm
  · exact absurd (congrArg Prod.fst h) (by simp)

theorem storeInv_create {s : CatStore} (h : StoreInv s) (cat : Category) :
    StoreInv (s.create cat).2 ∧ s.nextID ≤ (s.create cat).2.nextID := by
  rcases hcr : s.create cat with ⟨res, s2⟩
  dsimp only
  cases res with
  | error e =>
      have hs : s2 = s := create_error_shape hcr
      subst hs
      exact ⟨h, le_refl _⟩
  | ok c =>
      rcases create_ok_shape hcr with ⟨hcid, hs2, hname⟩
      subst hs2
      dsimp only
      rw [assocSet_of_fresh _ _ _ (storeInv_fresh_key h)]
      refine ⟨⟨?_, ?_⟩, le_of_lt (lt_add_one _)⟩
      · intro kv hm
        rcases List.mem_append.mp hm with hold | hnew
        · rcases h.1 kv hold with ⟨hid, hlt⟩
          exact ⟨hid, lt_trans hlt (lt_add_one _)⟩
        · have hkv : kv = (s.nextID, { cat with id := s.nextID }) := by
            simpa using hnew
          subst hkv
          exact ⟨rfl, lt_add_one _⟩
      · rw [List.map_append, List.nodup_append]
        refine ⟨h.2, by simp, ?_⟩
        intro a ha hb
        rcases List.mem_map.mp ha with ⟨kv, hm, hk⟩
        have hlt := (h.1 kv hm).2
        have hab : a = s.nextID := by simpa using hb
        omega

theorem storeInv_update {s : CatStore} (h : StoreInv s) (id : Int)
    (cat : Category) :
    StoreInv (s.update id cat).2 ∧ (s.update id cat).2.nextID = s.nextID := by
  unfold CatStore.update
  split
  · rename_i hsome
    have hany : s.categories.any (fun kv => kv.1 = id) = true := by
      rw [← assocFind_isSome_any]
      exact hsome
    refine ⟨⟨?_, ?_⟩, rfl⟩
    · intro kv hm
      have hm2 : kv ∈ (s.categories.map (fun kv =>
          if kv.1 = id then (id, { cat with id := id }) else kv)) := by
        have : kv ∈ assocSet s.categories id { cat with id := id } := hm
        simpa only [assocSet, hany, if_true] using this
      rcases List.mem_map.mp hm2 with ⟨kv0, hm0, hk⟩
      by_cases he : kv0.1 = id
      · rw [if_pos he] at hk
        subst hk
        have hlt : id < s.nextID := he ▸ (h.1 kv0 hm0).2
        exact ⟨rfl, hlt⟩
      · rw [if_neg he] at hk
        subst hk
        exact h.1 kv0 hm0
    · show ((assocSet s.categories id { cat with id := id }).map
          (fun kv => kv.1)).Nodup
      simp only [assocSet, hany, if_true]
      rw [keys_assocSet_existing]
      exact h.2
  · exact ⟨h, rfl⟩

theorem storeInv_delete {s : CatStore} (h : StoreInv s) (id : Int) :
    StoreInv (s.delete id).2 ∧ (s.delete id).2.nextID = s.nextID := by
  unfold CatStore.delete
  split
  · dsimp only
    refine ⟨⟨?_, ?_⟩, rfl⟩
    · intro kv hm
      exact h.1 kv (List.mem_of_mem_filter hm)
    · exact ((List.filter_sublist _).map _).nodup h.2
  · exact ⟨h, rfl⟩

theorem storeInv_step {s : CatStore} (h : StoreInv s) (op : COp) :
    StoreInv (s.step op) ∧ s.nextID ≤ (s.step op).nextID := by
  cases op with
  | create cat => exact storeInv_create h cat
  | update id cat =>
      rcases storeInv_update h id cat with ⟨h1, h2⟩
      exact ⟨h1, le_of_eq h2.symm⟩
  | delete id =>
      rcases storeInv_delete h id with ⟨h1, h2⟩
      exact ⟨h1, le_of_eq h2.symm⟩

theorem runTrace_cons (s : CatStore) (op : COp) (ops : List COp) :
    s.runTrace (op :: ops) =
      (((s.step op).runTrace ops).1,
        (match op with
         | .create cat =>
             match (s.create cat).1 with
             | .ok c => [c.id]
             | .error _ => []
         | _ => []) ++ ((s.step op).runTrace ops).2) := rfl

theorem runTrace_spec (ops : List COp) :
    ∀ s : CatStore, StoreInv s →
      StoreInv (s.runTrace ops).1 ∧
      s.nextID ≤ (s.runTrace ops).1.nextID ∧
      (∀ a ∈ (s.runTrace ops).2,
        s.nextID ≤ a ∧ a < (s.runTrace ops).1.nextID) ∧
      (s.runTrace ops).2.Pairwise (· < ·) := by
  induction ops with
  | nil =>
      intro s h
      exact ⟨h, le_refl _, by simp [CatStore.runTrace], by
        simp [CatStore.runTrace]⟩
  | cons op ops ih =>
      intro s h
      rcases storeInv_step h op with ⟨hstep, hle⟩
      rcases ih (s.step op) hstep with ⟨ih1, ih2, ih3, ih4⟩
      rw [runTrace_cons]
      cases op with
      | update id cat =>
          refine ⟨ih1, le_trans hle ih2, ?_, by simpa using ih4⟩
          intro a ha
          rcases ih3 a (by simpa using ha) with ⟨h1, h2⟩
          exact ⟨le_trans hle h1, h2⟩
      | delete id =>
          refine ⟨ih1, le_trans hle ih2, ?_, by simpa using ih4⟩
          intro a ha
          rcases ih3 a (by simpa using ha) with ⟨h1, h2⟩
          exact ⟨le_trans hle h1, h2⟩
      | create cat =>
          simp only [CatStore.step] at hstep hle ih1 ih2 ih3 ih4 ⊢
          rcases hcr : s.create cat with ⟨res, s2⟩
          rw [hcr] at hstep hle ih1 ih2 ih3 ih4
          dsimp only at hstep hle ih1 ih2 ih3 ih4 ⊢
          cases res with
          | error e =>
              refine ⟨ih1, le_trans hle ih2, ?_, by simpa using ih4⟩
              intro a ha
              rcases ih3 a (by simpa using ha) with ⟨h1, h2⟩
              exact ⟨le_trans hle h1, h2⟩
          | ok c =>
              rcases create_ok_shape hcr with ⟨hcid, hs2, _⟩
              have hcidv : c.id = s.nextID := by rw [hcid]
              have hs2n : s2.nextID = s.nextID + 1 := by rw [hs2]
              refine ⟨ih1, le_trans hle ih2, ?_, ?_⟩
              · intro a ha
                have ha2 : a = c.id ∨ a ∈ (s2.runTrace ops).2 := by
                  simpa using ha
                rcases ha2 with hac | ht
                · subst hac
                  have := ih2
                  constructor
                  · omega
                  · omega
                · rcases ih3 a ht with ⟨h1, h2⟩
                  exact ⟨le_trans hle h1, h2⟩
              · rw [List.pairwise_append]
                refine ⟨by simp, ih4, ?_⟩
                intro a ha b hb
                have hac : a = c.id := by simpa using ha
                subst hac
                have hblo := (ih3 b hb).1
                omega

theorem names_nodup_create {s : CatStore} (h : StoreInv s) (cat : Category)
    (hn : s.names.Nodup) : (s.create cat).2.names.Nodup := by
  rcases hcr : s.create cat with ⟨res, s2⟩
  dsimp only
  cases res with
  | error e =>
      have hs : s2 = s := create_error_shape hcr
      subst hs
      exact hn
  | ok c =>
      rcases create_ok_shape hcr with ⟨hcid, hs2, hname⟩
      subst hs2
      unfold CatStore.names
      dsimp only
      rw [assocSet_of_fresh _ _ _ (storeInv_fresh_key h)]
      rw [List.map_append, List.nodup_append]
      refine ⟨hn, by simp, ?_⟩
      intro a ha hb
      rcases List.mem_map.mp ha with ⟨kv, hm, hk⟩
      have hab : a = cat.name := by simpa using hb
      have hneq := List.any_eq_false.mp hname kv hm
      apply hneq
      simp only [decide_eq_true_eq]
      rw [hk, hab]

theorem names_nodup_delete {s : CatStore} (id : Int)
    (hn : s.names.Nodup) : (s.delete id).2.names.Nodup := by
  unfold CatStore.delete
  split
  · exact (((List.filter_sublist _).map _).nodup hn :)
  · exact hn

theorem run_names_nodup (ops : List COp) :
    ∀ s : CatStore, StoreInv s → s.names.Nodup →
      (∀ op ∈ ops, op.isUpdate = false) →
      ((s.runTrace ops).1).names.Nodup := by
  induction ops with
  | nil => intro s _ hn _; exact hn
  | cons op ops ih =>
      intro s h hn hno
      have hfst : (s.runTrace (op :: ops)).1 =
          ((s.step op).runTrace ops).1 := rfl
      rw [hfst]
      have hinvstep := (storeInv_step h op).1
      have htail : ∀ o ∈ ops, o.isUpdate = false := fun o ho =>
        hno o (List.mem_cons_of_mem _ ho)
      cases op with
      | create cat =>
          exact ih _ hinvstep (names_nodup_create h cat hn) htail
      | update id cat =>
          have := hno (.update id cat) (List.mem_cons_self _ _)
          simp [COp.isUpdate] at this
      | delete id =>
          exact ih _ hinvstep (names_nodup_delete id hn) htail

theorem update_ok_shape {s : CatStore} {id : Int} {cat c : Category}
    {s2 : CatStore} (h : s.update id cat = (.ok c, s2)) :
    c = { cat with id := id } ∧
    s2 = { s with
      categories := assocSet s.categories id { cat with id := id } } := by
  unfold CatStore.update at h
  split at h
  · exact ⟨(Except.ok.inj (congrArg Prod.fst h)).symm,
      (congrArg Prod.snd h).symm⟩
  · exact absurd (congrArg Prod.fst h) (by simp)

theorem mock_create_ok_shape {m : MockProdRepo} {p q : Product}
    {m2 : MockProdRepo} (h : m.create p = (.ok q, m2)) :
    q = { p with id := m.nextID } ∧
    m2 = { m with
      products := assocSet m.products m.nextID { p with id := m.nextID },
      nextID := m.nextID + 1 } := by
  unfold MockProdRepo.create at h
  split at h
  · exact absurd (congrArg Prod.fst h) (by simp)
  · split at h
    · exact absurd (congrArg Prod.fst h) (by simp)
    · exact ⟨(Except.ok.inj (congrArg Prod.fst h)).symm,
        (congrArg Prod.snd h).symm⟩

theorem mock_update_ok_shape {m : MockProdRepo} {id : Int} {p q : Product}
    {m2 : MockProdRepo} (h : m.update id p = (.ok q, m2)) :
    q = { p with id := id } ∧
    m2 = { m with
      products := assocSet m.products id { p with id := id } } := by
  unfold MockProdRepo.update at h
  split at h
  · exact absurd (congrArg Prod.fst h) (by simp)
  · split at h
    · exact absurd (congrArg Prod.fst h) (by simp)
    · exact ⟨(Except.ok.inj (congrArg Prod.fst h)).symm,
        (congrArg Prod.snd h).symm⟩

/-! ### Invariant preservation for the mock product repository -/

theorem any_key_lt_eq_false {l : List (Int × α)} {n : Int}
    (h : ∀ kv ∈ l, kv.1 < n) :
    l.any (fun kv => kv.1 = n) = false := by
  rw [List.any_eq_false]
  intro kv hm
  have := h kv hm
  simp only [decide_eq_true_eq]
  omega

theorem mock_create_error_shape {m : MockProdRepo} {e : StoreErr}
    {m2 : MockProdRepo} {p : Product} (h : m.create p = (.error e, m2)) :
    m2 = m := by
  unfold MockProdRepo.create at h
  split at h
  · exact (congrArg Prod.snd h).symm
  · split at h
    · exact (congrArg Prod.snd h).symm
    · exact absurd (congrArg Prod.fst h) (by simp)

theorem mock_update_error_shape {m : MockProdRepo} {id : Int} {e : StoreErr}
    {m2 : MockProdRepo} {p : Product} (h : m.update id p = (.error e, m2)) :
    m2 = m := by
  unfold MockProdRepo.update at h
  split at h
  · exact (congrArg Prod.snd h).symm
  · split at h
    · exact (congrArg Prod.snd h).symm
    · exact absurd (congrArg Prod.fst h) (by simp)

theorem mock_update_ok_key {m : MockProdRepo} {id : Int} {p q : Product}
    {m2 : MockProdRepo} (h : m.update id p = (.ok q, m2)) :
    m.products.any (fun kv => kv.1 = id) = true := by
  unfold MockProdRepo.update at h
  split at h
  · exact absurd (congrArg Prod.fst h) (by simp)
  · rename_i hnotnone
    rw [← assocFind_isSome_any]
    cases hfind : assocFind m.products id with
    | none => exact absurd (by rw [hfind]; rfl) hnotnone
    | some v => rfl

theorem mock_create_ok_name {m : MockProdRepo} {p q : Product}
    {m2 : MockProdRepo} (h : m.create p = (.ok q, m2)) :
    m.products.any (fun kv => kv.2.name = p.name) = false := by
  unfold MockProdRepo.create at h
  split at h
  · exact absurd (congrArg Prod.fst h) (by simp)
  · rename_i hname
    exact Bool.eq_false_iff.mpr hname

theorem prodInv_create {m : MockProdRepo} (h : ProdInv m) (p : Product) :
    ProdInv (m.create p).2 ∧ m.nextID ≤ (m.create p).2.nextID := by
  rcases hcr : m.create p with ⟨res, m2⟩
  dsimp only
  cases res with
  | error e =>
      have hs : m2 = m := mock_create_error_shape hcr
      subst hs
      exact ⟨h, le_refl _⟩
  | ok q =>
      rcases mock_create_ok_shape hcr with ⟨hq, hm2⟩
      subst hm2
      dsimp only
      have hfresh : m.products.any (fun kv => kv.1 = m.nextID) = false :=
        any_key_lt_eq_false (fun kv hm => (h.1 kv hm).2)
      rw [assocSet_of_fresh _ _ _ hfresh]
      refine ⟨⟨?_, ?_⟩, le_of_lt (lt_add_one _)⟩
      · intro kv hm
        rcases List.mem_append.mp hm with hold | hnew
        · rcases h.1 kv hold with ⟨hid, hlt⟩
          exact ⟨hid, lt_trans hlt (lt_add_one _)⟩
        · have hkv : kv = (m.nextID, { p with id := m.nextID }) := by
            simpa using hnew
          subst hkv
          exact ⟨rfl, lt_add_one _⟩
      · rw [List.map_append, List.nodup_append]
        refine ⟨h.2, by simp, ?_⟩
        intro a ha hb
        rcases List.mem_map.mp ha with ⟨kv, hm, hk⟩
        have hlt := (h.1 kv hm).2
        have hab : a = m.nextID := by simpa using hb
        omega

theorem prodInv_update {m : MockProdRepo} (h : ProdInv m) (id : Int)
    (p : Product) :
    ProdInv (m.update id p).2 ∧ (m.update id p).2.nextID = m.nextID := by
  rcases hcr : m.update id p with ⟨res, m2⟩
  dsimp only
  cases res with
  | error e =>
      have hs : m2 = m := mock_update_error_shape hcr
      subst hs
      exact ⟨h, rfl⟩
  | ok q =>
      have hany := mock_update_ok_key hcr
      rcases mock_update_ok_shape hcr with ⟨hq, hm2⟩
      subst hm2
      refine ⟨⟨?_, ?_⟩, rfl⟩
      · intro kv hm
        have hm2 : kv ∈ (m.products.map (fun kv =>
            if kv.1 = id then (id, { p with id := id }) else kv)) := by
          have : kv ∈ assocSet m.products id { p with id := id } := hm
          simpa only [assocSet, hany, if_true] using this
        rcases List.mem_map.mp hm2 with ⟨kv0, hm0, hk⟩
        by_cases he : kv0.1 = id
        · rw [if_pos he] at hk
          subst hk
          have hlt : id < m.nextID := he ▸ (h.1 kv0 hm0).2
          exact ⟨rfl, hlt⟩
        · rw [if_neg he] at hk
          subst hk
          exact h.1 kv0 hm0
      · show ((assocSet m.products id { p with id := id }).map
            (fun kv => kv.1)).Nodup
        simp only [assocSet, hany, if_true]
        rw [keys_assocSet_existing]
        exact h.2

theorem prodInv_delete {m : MockProdRepo} (h : ProdInv m) (id : Int) :
    ProdInv (m.delete id).2 ∧ (m.delete id).2.nextID = m.nextID := by
  unfold MockProdRepo.delete
  split
  · exact ⟨h, rfl⟩
  · dsimp only
    refine ⟨⟨?_, ?_⟩, rfl⟩
    · intro kv hm
      exact h.1 kv (List.mem_of_mem_filter hm)
    · exact ((List.filter_sublist _).map _).nodup h.2

theorem prodInv_pstep {m : MockProdRepo} (h : ProdInv m) (op : POp) :
    ProdInv (m.pstep op) ∧ m.nextID ≤ (m.pstep op).nextID := by
  cases op with
  | create p => exact prodInv_create h p
  | update id p =>
      rcases prodInv_update h id p with ⟨h1, h2⟩
      exact ⟨h1, le_of_eq h2.symm⟩
  | delete id =>
      rcases prodInv_delete h id with ⟨h1, h2⟩
      exact ⟨h1, le_of_eq h2.symm⟩

theorem runTraceP_cons (m : MockProdRepo) (op : POp) (ops : List POp) :
    m.runTraceP (op :: ops) =
      (((m.pstep op).runTraceP ops).1,
        (match op with
         | .create p =>
             match (m.create p).1 with
             | .ok q => [q.id]
             | .error _ => []
         | _ => []) ++ ((m.pstep op).runTraceP ops).2) := rfl

theorem runTraceP_spec (ops : List POp) :
    ∀ m : MockProdRepo, ProdInv m →
      ProdInv (m.runTraceP ops).1 ∧
      m.nextID ≤ (m.runTraceP ops).1.nextID ∧
      (∀ a ∈ (m.runTraceP ops).2,
        m.nextID ≤ a ∧ a < (m.runTraceP ops).1.nextID) ∧
      (m.runTraceP ops).2.Pairwise (· < ·) := by
  induction ops with
  | nil =>
      intro m h
      exact ⟨h, le_refl _, by simp [MockProdRepo.runTraceP], by
        simp [MockProdRepo.runTraceP]⟩
  | cons op ops ih =>
      intro m h
      rcases prodInv_pstep h op with ⟨hstep, hle⟩
      rcases ih (m.pstep op) hstep with ⟨ih1, ih2, ih3, ih4⟩
      rw [runTraceP_cons]
      cases op with
      | update id p =>
          refine ⟨ih1, le_trans hle ih2, ?_, by simpa using ih4⟩
          intro a ha
          rcases ih3 a (by simpa using ha) with ⟨h1, h2⟩
          exact ⟨le_trans hle h1, h2⟩
      | delete id =>
          refine ⟨ih1, le_trans hle ih2, ?_, by simpa using ih4⟩
          intro a ha
          rcases ih3 a (by simpa using ha) with ⟨h1, h2⟩
          exact ⟨le_trans hle h1, h2⟩
      | create p =>
          simp only [MockProdRepo.pstep] at hstep hle ih1 ih2 ih3 ih4 ⊢
          rcases hcr : m.create p with ⟨res, m2⟩
          rw [hcr] at hstep hle ih1 ih2 ih3 ih4
          dsimp only at hstep hle ih1 ih2 ih3 ih4 ⊢
          cases res with
          | error e =>
              refine ⟨ih1, le_trans hle ih2, ?_, by simpa using ih4⟩
              intro a ha
              rcases ih3 a (by simpa using ha) with ⟨h1, h2⟩
              exact ⟨le_trans hle h1, h2⟩
          | ok q =>
              rcases mock_create_ok_shape hcr with ⟨hq, hm2⟩
              have hqv : q.id = m.nextID := by rw [hq]
              have hm2n : m2.nextID = m.nextID + 1 := by rw [hm2]
              refine ⟨ih1, le_trans hle ih2, ?_, ?_⟩
              · intro a ha
                have ha2 : a = q.id ∨ a ∈ (m2.runTraceP ops).2 := by
                  simpa using ha
                rcases ha2 with hac | ht
                · subst hac
                  have := ih2
                  constructor
                  · omega
                  · omega
                · rcases ih3 a ht with ⟨h1, h2⟩
                  exact ⟨le_trans hle h1, h2⟩
              · rw [List.pairwise_append]
                refine ⟨by simp, ih4, ?_⟩
                intro a ha b hb
                have hac : a = q.id := by simpa using ha
                subst hac
                have hblo := (ih3 b hb).1
                omega

theorem pnames_nodup_create {m : MockProdRepo} (h : ProdInv m)
    (p : Product) (hn : m.prodNames.Nodup) :
    ((m.create p).2).prodNames.Nodup := by
  rcases hcr : m.create p with ⟨res, m2⟩
  dsimp only
  cases res with
  | error e =>
      have hs : m2 = m := mock_create_error_shape hcr
      subst hs
      exact hn
  | ok q =>
      have hname := mock_create_ok_name hcr
      rcases mock_create_ok_shape hcr with ⟨hq, hm2⟩
      subst hm2
      unfold MockProdRepo.prodNames
      dsimp only
      have hfresh : m.products.any (fun kv => kv.1 = m.nextID) = false :=
        any_key_lt_eq_false (fun kv hm => (h.1 kv hm).2)
      rw [assocSet_of_fresh _ _ _ hfresh]
      rw [List.map_append, List.nodup_append]
      refine ⟨hn, by simp, ?_⟩
      intro a ha hb
      rcases List.mem_map.mp ha with ⟨kv, hm, hk⟩
      have hab : a = p.name := by simpa using hb
      have hneq := List.any_eq_false.mp hname kv hm
      apply hneq
      simp only [decide_eq_true_eq]
      rw [hk, hab]

theorem pnames_nodup_delete {m : MockProdRepo} (id : Int)
    (hn : m.prodNames.Nodup) : ((m.delete id).2).prodNames.Nodup := by
  unfold MockProdRepo.delete
  split
  · exact hn
  · exact (((List.filter_sublist _).map _).nodup hn :)

theorem runP_names_nodup (ops : List POp) :
    ∀ m : MockProdRepo, ProdInv m → m.prodNames.Nodup →
      (∀ op ∈ ops, op.isUpdate = false) →
      ((m.runTraceP ops).1).prodNames.Nodup := by
  induction ops with
  | nil => intro m _ hn _; exact hn
  | cons op ops ih =>
      intro m h hn hno
      have hfst : (m.runTraceP (op :: ops)).1 =
          ((m.pstep op).runTraceP ops).1 := rfl
      rw [hfst]
      have hinvstep := (prodInv_pstep h op).1
      have htail : ∀ o ∈ ops, o.isUpdate = false := fun o ho =>
        hno o (List.mem_cons_of_mem _ ho)
      cases op with
      | create p =>
          exact ih _ hinvstep (pnames_nodup_create h p hn) htail
      | update id p =>
          have := hno (.update id p) (List.mem_cons_self _ _)
          simp [POp.isUpdate] at this
      | delete id =>
          exact ih _ hinvstep (pnames_nodup_delete id hn) htail

/-! ### Claim C1 -/

/-- Claim C1 as stated is false on the code: in the category store reached
by creating "A" and "B", updating entity 2 with the name "A" (already used
by entity 1) is accepted and leaves two entities with the same name; the
mock product repository behaves the same way on its update. -/
theorem c1_counterexample :
    ((twoCatStore.update 2 { id := 0, name := "A", description := "" }).1 =
      .ok { id := 2, name := "A", description := "" } ∧
    ¬ ((twoCatStore.update 2
        { id := 0, name := "A", description := "" }).2).names.Nodup) ∧
    ((twoProdRepo.update 2 (pIn "A")).1 = .ok { pIn "A" with id := 2 } ∧
    ¬ ((twoProdRepo.update 2 (pIn "A")).2).prodNames.Nodup) := by
  exact ⟨⟨rfl, by decide⟩, ⟨rfl, by decide⟩⟩

/-- Claim C1 (amended): for categories and products alike, name uniqueness
is enforced only by create — the category store and handler, the mock
product repository and the persisted product repository each reject a
create whose name equals an existing entity's name with the name-conflict
error, leaving the state unchanged — while no update variant re-checks name
uniqueness (none can even return the name-conflict error), so name
uniqueness is an invariant of exactly the update-free operation sequences
of either store. -/
theorem c1_theorem :
    (∀ (s : CatStore) (cat : Category),
      s.categories.any (fun kv => kv.2.name = cat.name) = true →
        s.create cat = (.error .nameExists, s)) ∧
    (∀ (s : CatStore) (input : CatInput),
      input.name ≠ "" →
      s.categories.any (fun kv => kv.2.name = input.name) = true →
        catCreate s (.ok input) =
          (sendError 409 "Category name already exists", s)) ∧
    (∀ (m : MockProdRepo) (p : Product),
      m.products.any (fun kv => kv.2.name = p.name) = true →
        m.create p = (.error .nameExists, m)) ∧
    (∀ (db : Db) (p : ProductInput),
      db.products.any (fun r => r.name = p.name) = true →
        db.prodCreate p = (.error .nameExists, db)) ∧
    (∀ (m : MockProdRepo) (id : Int) (p : Product),
      (m.update id p).1 ≠ .error .nameExists) ∧
    (∀ (db : Db) (id : Int) (p : ProductInput),
      (db.prodUpdate id p).1 ≠ .error .nameExists) ∧
    (∀ (s : CatStore) (id : Int) (cat : Category),
      (s.update id cat).1 ≠ .error .nameExists) ∧
    (∀ ops : List COp, (∀ op ∈ ops, op.isUpdate = false) →
      (CatStore.run ops).names.Nodup) ∧
    (∀ (cats : List (Int × Category)) (ops : List POp),
      (∀ op ∈ ops, op.isUpdate = false) →
      (MockProdRepo.runP cats ops).prodNames.Nodup) := by
  have hcreate : ∀ (s : CatStore) (cat : Category),
      s.categories.any (fun kv => kv.2.name = cat.name) = true →
        s.create cat = (.error .nameExists, s) := by
    intro s cat hany
    unfold CatStore.create
    rw [if_pos hany]
  refine ⟨hcreate, ?_, ?_, ?_, ?_, ?_, ?_, ?_, ?_⟩
  · intro s input hname hany
    unfold catCreate
    dsimp only
    rw [if_neg hname, hcreate s _ hany]
  · intro m p hany
    unfold MockProdRepo.create
    rw [if_pos hany]
  · intro db p hany
    unfold Db.prodCreate
    rw [if_pos hany]
  · intro m id p
    unfold MockProdRepo.update
    split
    · simp
    · split
      · simp
      · simp
  · intro db id p
    unfold Db.prodUpdate
    split
    · simp
    · split
      · simp
      · simp
  · intro s id cat
    unfold CatStore.update
    split
    · simp
    · simp
  · intro ops hno
    exact run_names_nodup ops CatStore.empty storeInv_empty
      (by simp [CatStore.names, CatStore.empty]) hno
  · intro cats ops hno
    refine runP_names_nodup ops (MockProdRepo.initWith cats) ⟨?_, ?_⟩ ?_ hno
    · intro kv hm
      simp [MockProdRepo.initWith] at hm
    · simp [MockProdRepo.initWith]
    · simp [MockProdRepo.prodNames, MockProdRepo.initWith]

/-- Witness for C1: creating a third entity named "A" is rejected without a
state change in both the category store and the mock product repository,
and the update-free runs building them have pairwise distinct names. -/
theorem c1_witness :
    twoCatStore.create { id := 0, name := "A", description := "" } =
      (.error .nameExists, twoCatStore) ∧
    (CatStore.run
      [.create { id := 0, name := "A", description := "" },
       .create { id := 0, name := "B", description := "" }]).names.Nodup ∧
    twoProdRepo.create (pIn "A") = (.error .nameExists, twoProdRepo) ∧
    (MockProdRepo.runP []
      [.create (pIn "A"), .create (pIn "B")]).prodNames.Nodup :=
  ⟨c1_theorem.1 twoCatStore _ (by decide),
   c1_theorem.2.2.2.2.2.2.2.1 _ (by decide),
   c1_theorem.2.2.1 twoProdRepo (pIn "A") (by decide),
   c1_theorem.2.2.2.2.2.2.2.2 [] _ (by decide)⟩

/-! ### Claim C2 -/

/-- Claim C2 as stated is false on the code: the id suffix is parsed with
strconv.Atoi, which accepts zero (and negatives); `GET` with suffix "0" on
the empty repository parses successfully, dispatches to get-one and yields
404 "Product not found" — not the claimed 400, and 404 does occur. -/
theorem c2_counterexample :
    atoi "0" = some 0 ∧
    productServe mock0 .get "0" "" .malformed =
      (sendError 404 "Product not found", mock0) := by
  exact ⟨rfl, rfl⟩

/-- Claim C2 (amended): for a non-empty path suffix, both handlers accept
exactly the suffixes that parse under strconv.Atoi — any signed in-range
decimal integer, including zero and negatives; a parse failure yields 400
"Invalid product ID" / "Invalid category ID" for every method, and a parsed
id is dispatched by method: GET to get-one, PUT to update, DELETE to
delete, any other method to 405. -/
theorem c2_theorem :
    ∀ (method : Method) (path : String), path ≠ "" →
      (∀ (m : MockProdRepo) (catQ : String) (body : BodyOf ProductInput),
        (atoi path = none →
          productServe m method path catQ body =
            (sendError 400 "Invalid product ID", m)) ∧
        (∀ id : Int, atoi path = some id →
          productServe m method path catQ body =
            (match method with
             | .get => (productGetByID m id, m)
             | .put => productUpdate m id body
             | .delete => productDelete m id
             | _ => (methodNotAllowed, m)))) ∧
      (∀ (s : CatStore) (body : BodyOf CatInput) (order : List Int),
        (atoi path = none →
          fullCategoryServe s method path body order =
            (sendError 400 "Invalid category ID", s)) ∧
        (∀ id : Int, atoi path = some id →
          fullCategoryServe s method path body order =
            (match method with
             | .get => (catGetByID s id, s)
             | .put => catUpdate s id body
             | .delete => catDelete s id
             | _ => (methodNotAllowed, s)))) := by
  intro method path hp
  constructor
  · intro m catQ body
    have h1 : ¬ (path = "" ∧ method = .get ∧ catQ ≠ "") :=
      fun hcontra => hp hcontra.1
    unfold productServe
    rw [if_neg h1, if_neg hp]
    constructor
    · intro hnone
      rw [hnone]
    · intro id hid
      rw [hid]
  · intro s body order
    unfold fullCategoryServe
    rw [if_neg hp]
    constructor
    · intro hnone
      rw [hnone]
    · intro id hid
      rw [hid]

/-- Witness for C2: the amended theorem at the concrete non-integer suffix
"abc" and at the parsed suffix "7" with method GET. -/
theorem c2_witness :
    productServe mock0 .put "abc" "" .malformed =
      (sendError 400 "Invalid product ID", mock0) ∧
    productServe mock0 .get "7" "" .malformed =
      (productGetByID mock0 7, mock0) :=
  ⟨((c2_theorem .put "abc" (by decide)).1 mock0 "" .malformed).1 rfl,
   ((c2_theorem .get "7" (by decide)).1 mock0 "" .malformed).2 7 rfl⟩

/-! ### Claim C3 -/

/-- Claim C3: in the persisted backend a successful category delete removes
the category and clears every referencing product's category reference
(ON DELETE SET NULL semantics, modelled from the spec because the
foreign-key migration is not among the sources); the in-memory variant
performs no cascading — its delete leaves the counter unchanged and only
removes category entries. -/
theorem c3_theorem :
    (∀ (db : Db) (id : Int) (db2 : Db),
      db.catDelete id = (.ok (), db2) →
        (∀ r ∈ db2.products, r.categoryId ≠ some id) ∧
        (∀ c ∈ db2.categories, c.id ≠ id)) ∧
    (∀ (s : CatStore) (id : Int),
      (s.delete id).2.nextID = s.nextID ∧
      (s.delete id).2.categories.Sublist s.categories) := by
  constructor
  · intro db id db2 h
    unfold Db.catDelete at h
    split at h
    · have hdb2 : db2 = { db with
          categories := db.categories.filter (fun c => c.id ≠ id),
          products := db.products.map (fun r =>
            if r.categoryId = some id then { r with categoryId := none }
            else r) } := (congrArg Prod.snd h).symm
      subst hdb2
      constructor
      · intro r hr
        rcases List.mem_map.mp hr with ⟨r0, hm0, hk⟩
        by_cases hc : r0.categoryId = some id
        · rw [if_pos hc] at hk
          subst hk
          simp
        · rw [if_neg hc] at hk
          subst hk
          exact hc
      · intro c hc
        have := List.of_mem_filter hc
        simpa using this
    · exact absurd (congrArg Prod.fst h) (by simp)
  · intro s id
    unfold CatStore.delete
    split
    · exact ⟨rfl, List.filter_sublist _⟩
    · exact ⟨rfl, List.Sublist.refl _⟩

/-- Witness for C3: deleting category 1 from the sample relational state
succeeds, and a previously referencing row is left with an absent category
reference. -/
theorem c3_witness :
    ({ id := 1, name := "Phone", price := 1, stock := 1,
       categoryId := none } : ProdRow).categoryId ≠ some 1 :=
  (c3_theorem.1 dbSample 1 (dbSample.catDelete 1).2 rfl).1
    { id := 1, name := "Phone", price := 1, stock := 1, categoryId := none }
    (by decide)

/-! ### Claim C4 -/

/-- Claim C4: product create and update validate in the fixed order decode,
name, price, stock, repository; the first failing check fully determines
the response — for a body failing an earlier check the result is the same
for every repository state and the state is returned unchanged, so the
store is never consulted — and when every check passes the repository
operation is what produces the final state. -/
theorem c4_theorem :
    ∀ (m : MockProdRepo) (id : Int) (input : ProductInput),
      (productCreate m .malformed =
          (sendError 400 "Invalid request body", m) ∧
       productUpdate m id .malformed =
          (sendError 400 "Invalid request body", m)) ∧
      (input.name = "" →
        productCreate m (.ok input) = (sendError 400 "Name is required", m) ∧
        productUpdate m id (.ok input) =
          (sendError 400 "Name is required", m)) ∧
      (input.name ≠ "" → input.price < 0 →
        productCreate m (.ok input) =
          (sendError 400 "Price cannot be negative", m) ∧
        productUpdate m id (.ok input) =
          (sendError 400 "Price cannot be negative", m)) ∧
      (input.name ≠ "" → ¬ input.price < 0 → input.stock < 0 →
        productCreate m (.ok input) =
          (sendError 400 "Stock cannot be negative", m) ∧
        productUpdate m id (.ok input) =
          (sendError 400 "Stock cannot be negative", m)) ∧
      (input.name ≠ "" → ¬ input.price < 0 → ¬ input.stock < 0 →
        (productCreate m (.ok input)).2 = (m.create input.toProduct).2 ∧
        (productUpdate m id (.ok input)).2 =
          (m.update id input.toProduct).2) := by
  intro m id input
  refine ⟨⟨rfl, rfl⟩, ?_, ?_, ?_, ?_⟩
  · intro hname
    unfold productCreate productUpdate
    dsimp only
    rw [if_pos hname, if_pos hname]
    exact ⟨rfl, rfl⟩
  · intro hname hprice
    unfold productCreate productUpdate
    dsimp only
    rw [if_neg hname, if_neg hname, if_pos hprice, if_pos hprice]
    exact ⟨rfl, rfl⟩
  · intro hname hprice hstock
    unfold productCreate productUpdate
    dsimp only
    rw [if_neg hname, if_neg hname, if_neg hprice, if_neg hprice,
      if_pos hstock, if_pos hstock]
    exact ⟨rfl, rfl⟩
  · intro hname hprice hstock
    unfold productCreate productUpdate
    dsimp only
    rw [if_neg hname, if_neg hname, if_neg hprice, if_neg hprice,
      if_neg hstock, if_neg hstock]
    constructor
    · rcases m.create input.toProduct with ⟨res, m2⟩
      cases res with
      | ok created => rfl
      | error e => cases e <;> rfl
    · rcases m.update id input.toProduct with ⟨res, m2⟩
      cases res with
      | ok updated => rfl
      | error e => cases e <;> rfl

/-- Witness for C4: on the empty repository, an empty name is rejected with
"Name is required" even though the price is also negative (the earlier
check wins), and a negative price with a non-empty name is rejected with
"Price cannot be negative". -/
theorem c4_witness :
    productCreate mock0
        (.ok { name := "", price := -1, stock := 1, categoryID := 0 }) =
      (sendError 400 "Name is required", mock0) ∧
    productCreate mock0
        (.ok { name := "P", price := -1, stock := 1, categoryID := 0 }) =
      (sendError 400 "Price cannot be negative", mock0) :=
  ⟨((c4_theorem mock0 0
      { name := "", price := -1, stock := 1, categoryID := 0 }).2.1 rfl).1,
   ((c4_theorem mock0 0
      { name := "P", price := -1, stock := 1, categoryID := 0 }).2.2.1
      (by decide) (by norm_num)).1⟩

/-! ### Claim C5 -/

/-- Claim C5 as stated is false for the in-memory variant: GetAll iterates a
Go map, whose iteration order is unspecified; visiting the two-element store
in the order [2, 1] — a legitimate iteration order — returns the categories
neither sorted by identifier nor in insertion order. -/
theorem c5_counterexample :
    IterOrder twoCatStore [2, 1] ∧
    twoCatStore.getAllWith [2, 1] =
      [{ id := 2, name := "B", description := "" },
       { id := 1, name := "A", description := "" }] ∧
    ¬ List.Sorted (· ≤ ·)
        ((twoCatStore.getAllWith [2, 1]).map (fun c => c.id)) ∧
    twoCatStore.getAllWith [2, 1] ≠ twoCatStore.values := by
  refine ⟨by decide, by decide, by decide, by decide⟩

/-- Claim C5 (amended): the persisted list-all returns the category rows
sorted by id ascending (a permutation of the table); the in-memory GetAll
returns, for every possible map iteration order, exactly a permutation of
the stored categories, with no ordering guarantee. -/
theorem c5_theorem :
    (∀ db : Db,
      List.Sorted (fun a b => a.id ≤ b.id) db.catGetAll ∧
      db.catGetAll.Perm db.categories) ∧
    (∀ (ops : List COp) (order : List Int),
      IterOrder (CatStore.run ops) order →
      ((CatStore.run ops).getAllWith order).Perm
        (CatStore.run ops).values) := by
  constructor
  · intro db
    exact ⟨List.sorted_insertionSort _ _, List.perm_insertionSort _ _⟩
  · intro ops order horder
    have hinv := (runTrace_spec ops CatStore.empty storeInv_empty).1
    have hnd : ((CatStore.run ops).categories.map
        (fun kv => kv.1)).Nodup := hinv.2
    have h1 : ((CatStore.run ops).getAllWith order).Perm
        (((CatStore.run ops).categories.map (fun kv => kv.1)).filterMap
          (fun k => assocFind (CatStore.run ops).categories k)) :=
      List.Perm.filterMap _ horder
    rw [keys_filterMap_values _ hnd] at h1
    exact h1

/-- Witness for C5: the backwards iteration over the two-element store is
still a permutation of the stored values. -/
theorem c5_witness :
    (twoCatStore.getAllWith [2, 1]).Perm twoCatStore.values :=
  c5_theorem.2
    [.create { id := 0, name := "A", description := "" },
     .create { id := 0, name := "B", description := "" }]
    [2, 1] (by decide)

/-! ### Claim C6 -/

/-- Claim C6: identifiers are monotonic and never reused in both in-memory
stores — for every operation sequence on a fresh category store, and on a
fresh (possibly category-seeded) mock product repository, the identifiers
returned by the successful creates are strictly increasing in order (so an
id freed by a delete is never handed out again), every stored entity's ID
field always equals its key, and a further successful create returns an
identifier strictly greater than every identifier assigned during the
run. -/
theorem c6_theorem :
    (∀ ops : List COp,
      (CatStore.assigned ops).Pairwise (· < ·) ∧
      (∀ kv ∈ (CatStore.run ops).categories, kv.2.id = kv.1) ∧
      (∀ (cat c : Category) (s2 : CatStore),
        (CatStore.run ops).create cat = (.ok c, s2) →
        ∀ a ∈ CatStore.assigned ops, a < c.id)) ∧
    (∀ (cats : List (Int × Category)) (ops : List POp),
      (MockProdRepo.assignedP cats ops).Pairwise (· < ·) ∧
      (∀ kv ∈ (MockProdRepo.runP cats ops).products, kv.2.id = kv.1) ∧
      (∀ (p q : Product) (m2 : MockProdRepo),
        (MockProdRepo.runP cats ops).create p = (.ok q, m2) →
        ∀ a ∈ MockProdRepo.assignedP cats ops, a < q.id)) := by
  constructor
  · intro ops
    have hspec := runTrace_spec ops CatStore.empty storeInv_empty
    refine ⟨hspec.2.2.2, ?_, ?_⟩
    · intro kv hm
      exact ((hspec.1).1 kv hm).1
    · intro cat c s2 hcr a ha
      rcases create_ok_shape hcr with ⟨hcid, _, _⟩
      have hlt := (hspec.2.2.1 a ha).2
      have hcidv : c.id = (CatStore.run ops).nextID := by rw [hcid]
      rw [hcidv]
      exact hlt
  · intro cats ops
    have hinv : ProdInv (MockProdRepo.initWith cats) := by
      refine ⟨?_, ?_⟩
      · intro kv hm
        simp [MockProdRepo.initWith] at hm
      · simp [MockProdRepo.initWith]
    have hspec := runTraceP_spec ops (MockProdRepo.initWith cats) hinv
    refine ⟨hspec.2.2.2, ?_, ?_⟩
    · intro kv hm
      exact ((hspec.1).1 kv hm).1
    · intro p q m2 hcr a ha
      rcases mock_create_ok_shape hcr with ⟨hq, _⟩
      have hlt := (hspec.2.2.1 a ha).2
      have hqv : q.id = (MockProdRepo.runP cats ops).nextID := by rw [hq]
      rw [hqv]
      exact hlt

/-- Witness for C6: running create, delete 1, create assigns the strictly
increasing trace [1, 2] in both stores, and a further create is given
identifier 3, strictly above the freed identifier 1. -/
theorem c6_witness :
    (CatStore.assigned opsCDC = [1, 2] ∧
     (1 : Int) <
       (({ id := 3, name := "C", description := "" } : Category)).id) ∧
    (MockProdRepo.assignedP [] opsPDC = [1, 2] ∧
     (1 : Int) < (({ pIn "C" with id := 3 } : Product)).id) :=
  ⟨⟨by decide,
    (c6_theorem.1 opsCDC).2.2 { id := 0, name := "C", description := "" }
      { id := 3, name := "C", description := "" }
      ((CatStore.run opsCDC).create
        { id := 0, name := "C", description := "" }).2
      rfl 1 (by decide)⟩,
   ⟨by decide,
    (c6_theorem.2 [] opsPDC).2.2 (pIn "C") { pIn "C" with id := 3 }
      ((MockProdRepo.runP [] opsPDC).create (pIn "C")).2
      rfl 1 (by decide)⟩⟩

/-! ### Claim C7 -/

/-- Claim C7 as stated is false for the product repository: after creating
a product that references existing category 1, get-by-id returns a record
whose embedded category field carries the read-time snapshot, which differs
from the corresponding field of the input. -/
theorem c7_counterexample :
    (mockOneCat.create inputCat1).1 = .ok { inputCat1 with id := 1 } ∧
    ((mockOneCat.create inputCat1).2).getByID 1 =
      .ok { inputCat1 with
            id := 1
            category := some { id := 1, name := "Electronics",
                               description := "E" } } ∧
    some ({ id := 1, name := "Electronics", description := "E" } : Category)
      ≠ inputCat1.category := by
  refine ⟨rfl, rfl, by decide⟩

/-- Claim C7 (amended): create/update round-trips preserve all stored
fields with the identifier assigned by the store and any identifier
supplied inside the record ignored; for products, the record returned by a
read additionally carries the read-time category snapshot attached by the
repository, so it equals the input only up to that embedded field. -/
theorem c7_theorem :
    (∀ (s : CatStore) (X c : Category) (s2 : CatStore),
      s.create X = (.ok c, s2) →
        c.name = X.name ∧ c.description = X.description ∧
        s2.getByID c.id = .ok c) ∧
    (∀ (s : CatStore) (id : Int) (Y c : Category) (s2 : CatStore),
      s.update id Y = (.ok c, s2) →
        c = { Y with id := id } ∧ s2.getByID id = .ok c) ∧
    (∀ (m : MockProdRepo) (X q : Product) (m2 : MockProdRepo),
      m.create X = (.ok q, m2) →
        q.name = X.name ∧ q.price = X.price ∧ q.stock = X.stock ∧
        q.categoryID = X.categoryID ∧
        m2.getByID q.id = .ok (m2.attach q)) ∧
    (∀ (m : MockProdRepo) (id : Int) (Y q : Product) (m2 : MockProdRepo),
      m.update id Y = (.ok q, m2) →
        q = { Y with id := id } ∧ m2.getByID id = .ok (m2.attach q)) := by
  refine ⟨?_, ?_, ?_, ?_⟩
  · intro s X c s2 h
    rcases create_ok_shape h with ⟨hcid, hs2, _⟩
    subst hcid
    subst hs2
    refine ⟨rfl, rfl, ?_⟩
    unfold CatStore.getByID
    dsimp only
    rw [assocFind_assocSet_self]
  · intro s id Y c s2 h
    rcases update_ok_shape h with ⟨hcid, hs2⟩
    subst hcid
    subst hs2
    refine ⟨rfl, ?_⟩
    unfold CatStore.getByID
    dsimp only
    rw [assocFind_assocSet_self]
  · intro m X q m2 h
    rcases mock_create_ok_shape h with ⟨hq, hm2⟩
    subst hq
    subst hm2
    refine ⟨rfl, rfl, rfl, rfl, ?_⟩
    unfold MockProdRepo.getByID
    dsimp only
    rw [assocFind_assocSet_self]
  · intro m id Y q m2 h
    rcases mock_update_ok_shape h with ⟨hq, hm2⟩
    subst hq
    subst hm2
    refine ⟨rfl, ?_⟩
    unfold MockProdRepo.getByID
    dsimp only
    rw [assocFind_assocSet_self]

/-- Witness for C7: updating entity 1 of `twoCatStore` with a record whose
embedded identifier is 99 stores it under identifier 1, and get-by-id
returns it with the original identifier preserved. -/
theorem c7_witness :
    ((twoCatStore.update 1
        { id := 99, name := "Z", description := "d" }).2).getByID 1 =
      .ok { id := 1, name := "Z", description := "d" } :=
  (c7_theorem.2.1 twoCatStore 1 { id := 99, name := "Z", description := "d" }
    { id := 1, name := "Z", description := "d" }
    (twoCatStore.update 1 { id := 99, name := "Z", description := "d" }).2
    rfl).2

/-! ### Claim C8 -/

/-- Claim C8: updating an id that is not in the store returns the not-found
error from the store and leaves the state untouched, and the handler maps
it to a 404 "Category not found" failure envelope, again without changing
the store — in particular no entity is created. -/
theorem c8_theorem :
    ∀ (s : CatStore) (id : Int) (cat : Category) (input : CatInput),
      assocFind s.categories id = none →
      (s.update id cat = (.error .notFound, s)) ∧
      (input.name ≠ "" →
        catUpdate s id (.ok input) =
          (sendError 404 "Category not found", s)) := by
  intro s id cat input hnone
  have hupd : ∀ c : Category, s.update id c = (.error .notFound, s) := by
    intro c
    unfold CatStore.update
    rw [hnone]
    rfl
  refine ⟨hupd cat, ?_⟩
  intro hname
  unfold catUpdate
  dsimp only
  rw [if_neg hname, hupd _]

/-- Witness for C8: id 5 is absent from `twoCatStore`; updating it fails
with not-found at the store and yields the 404 envelope at the handler,
both leaving the store unchanged. -/
theorem c8_witness :
    twoCatStore.update 5 { id := 0, name := "N", description := "" } =
      (.error .notFound, twoCatStore) ∧
    catUpdate twoCatStore 5 (.ok { name := "N", description := "" }) =
      (sendError 404 "Category not found", twoCatStore) :=
  ⟨(c8_theorem twoCatStore 5 { id := 0, name := "N", description := "" }
      { name := "N", description := "" } rfl).1,
   (c8_theorem twoCatStore 5 { id := 0, name := "N", description := "" }
      { name := "N", description := "" } rfl).2 (by decide)⟩

/-! ### Claim C9 -/

theorem written_productCreate (m : MockProdRepo) (b : BodyOf ProductInput) :
    ((productCreate m b).1).written := by
  unfold productCreate
  cases b with
  | malformed => exact ⟨rfl, rfl⟩
  | ok input =>
      dsimp only
      split
      · exact ⟨rfl, rfl⟩
      · split
        · exact ⟨rfl, rfl⟩
        · split
          · exact ⟨rfl, rfl⟩
          · rcases m.create input.toProduct with ⟨res, m2⟩
            cases res with
            | ok c => exact ⟨rfl, rfl⟩
            | error e => cases e <;> exact ⟨rfl, rfl⟩

theorem written_productUpdate (m : MockProdRepo) (id : Int)
    (b : BodyOf ProductInput) : ((productUpdate m id b).1).written := by
  unfold productUpdate
  cases b with
  | malformed => exact ⟨rfl, rfl⟩
  | ok input =>
      dsimp only
      split
      · exact ⟨rfl, rfl⟩
      · split
        · exact ⟨rfl, rfl⟩
        · split
          · exact ⟨rfl, rfl⟩
          · rcases m.update id input.toProduct with ⟨res, m2⟩
            cases res with
            | ok c => exact ⟨rfl, rfl⟩
            | error e => cases e <;> exact ⟨rfl, rfl⟩

theorem written_productGetByID (m : MockProdRepo) (id : Int) :
    (productGetByID m id).written := by
  unfold productGetByID
  rcases m.getByID id with res | res
  · exact ⟨rfl, rfl⟩
  · exact ⟨rfl, rfl⟩

theorem written_productDelete (m : MockProdRepo) (id : Int) :
    ((productDelete m id).1).written := by
  unfold productDelete
  rcases m.delete id with ⟨res, m2⟩
  cases res with
  | ok u => exact ⟨rfl, rfl⟩
  | error e => exact ⟨rfl, rfl⟩

theorem written_catCreate (s : CatStore) (b : BodyOf CatInput) :
    ((catCreate s b).1).written := by
  unfold catCreate
  cases b with
  | malformed => exact ⟨rfl, rfl⟩
  | ok input =>
      dsimp only
      split
      · exact ⟨rfl, rfl⟩
      · rcases s.create _ with ⟨res, s2⟩
        cases res with
        | ok c => exact ⟨rfl, rfl⟩
        | error e => cases e <;> exact ⟨rfl, rfl⟩

theorem written_catUpdate (s : CatStore) (id : Int) (b : BodyOf CatInput) :
    ((catUpdate s id b).1).written := by
  unfold catUpdate
  cases b with
  | malformed => exact ⟨rfl, rfl⟩
  | ok input =>
      dsimp only
      split
      · exact ⟨rfl, rfl⟩
      · rcases s.update id _ with ⟨res, s2⟩
        cases res with
        | ok c => exact ⟨rfl, rfl⟩
        | error e => exact ⟨rfl, rfl⟩

theorem written_catGetByID (s : CatStore) (id : Int) :
    (catGetByID s id).written := by
  unfold catGetByID
  rcases s.getByID id with res | res
  · exact ⟨rfl, rfl⟩
  · exact ⟨rfl, rfl⟩

theorem written_catDelete (s : CatStore) (id : Int) :
    ((catDelete s id).1).written := by
  unfold catDelete
  rcases s.delete id with ⟨res, s2⟩
  cases res with
  | ok u => exact ⟨rfl, rfl⟩
  | error e => exact ⟨rfl, rfl⟩

/-- Claim C9 as stated is false for the early category handler variant: an
id-suffixed path falls off the end of ServeHTTP without writing any
envelope (the content-type header is the only thing set). -/
theorem c9_counterexample :
    (earlyCategoryServe CatStore.empty .get "1" []).body = none := rfl

/-- Claim C9 (amended): the product handler and the full category handler
write a JSON envelope — success flag, message, optional payload — for every
method, path shape and body, with the JSON content-type always set; the
early category handler variant also always sets the content type but
writes an envelope only on the collection path. -/
theorem c9_theorem :
    ∀ (m : MockProdRepo) (s : CatStore) (method : Method)
      (path catQ : String) (pbody : BodyOf ProductInput)
      (cbody : BodyOf CatInput) (order : List Int),
      ((productServe m method path catQ pbody).1).written ∧
      ((fullCategoryServe s method path cbody order).1).written ∧
      (earlyCategoryServe s method path order).contentTypeJson = true := by
  intro m s method path catQ pbody cbody order
  refine ⟨?_, ?_, ?_⟩
  · unfold productServe
    split
    · cases h : atoi catQ with
      | none => exact ⟨rfl, rfl⟩
      | some cid => exact ⟨rfl, rfl⟩
    · split
      · cases method with
        | get => exact ⟨rfl, rfl⟩
        | post => exact written_productCreate m pbody
        | put => exact ⟨rfl, rfl⟩
        | delete => exact ⟨rfl, rfl⟩
        | patch => exact ⟨rfl, rfl⟩
      · cases h : atoi path with
        | none => exact ⟨rfl, rfl⟩
        | some id =>
            cases method with
            | get => exact written_productGetByID m id
            | put => exact written_productUpdate m id pbody
            | delete => exact written_productDelete m id
            | post => exact ⟨rfl, rfl⟩
            | patch => exact ⟨rfl, rfl⟩
  · unfold fullCategoryServe
    split
    · cases method with
      | get => exact ⟨rfl, rfl⟩
      | post => exact written_catCreate s cbody
      | put => exact ⟨rfl, rfl⟩
      | delete => exact ⟨rfl, rfl⟩
      | patch => exact ⟨rfl, rfl⟩
    · cases h : atoi path with
      | none => exact ⟨rfl, rfl⟩
      | some id =>
          cases method with
          | get => exact written_catGetByID s id
          | put => exact written_catUpdate s id cbody
          | delete => exact written_catDelete s id
          | post => exact ⟨rfl, rfl⟩
          | patch => exact ⟨rfl, rfl⟩
  · unfold earlyCategoryServe
    split
    · cases method with
      | get => rfl
      | post => rfl
      | put => rfl
      | delete => rfl
      | patch => rfl
    · rfl

/-! ### Claim C10 -/

/-- Claim C10: a zero or negative category reference is silently treated as
"no category": neither create nor update (persisted or mock) ever rejects
it with the category-not-found error, a successful persisted create stores
the row with an absent category reference, and a successful persisted
update clears the row's category reference. -/
theorem c10_theorem :
    (∀ (db : Db) (p : ProductInput), p.categoryID ≤ 0 →
      (db.prodCreate p).1 ≠ .error .categoryNotFound ∧
      (∀ (row : ProdRow) (db2 : Db),
        db.prodCreate p = (.ok row, db2) →
        row.categoryId = none ∧ row ∈ db2.products) ∧
      (∀ (id : Int) (row : ProdRow) (db2 : Db),
        db.prodUpdate id p = (.ok row, db2) →
        row.categoryId = none ∧
        ∀ r ∈ db2.products, r.id = id → r.categoryId = none)) ∧
    (∀ (m : MockProdRepo) (id : Int) (q : Product), q.categoryID ≤ 0 →
      (m.create q).1 ≠ .error .categoryNotFound ∧
      (m.update id q).1 ≠ .error .categoryNotFound) := by
  constructor
  · intro db p hp
    have hcond : ¬ (p.categoryID > 0 ∧ ¬ db.categoryExists p.categoryID) :=
      fun hcontra => absurd hcontra.1 (by omega)
    have hnone : (if p.categoryID > 0 then some p.categoryID else none) =
        (none : Option Int) := by
      rw [if_neg (by omega)]
    refine ⟨?_, ?_, ?_⟩
    · unfold Db.prodCreate
      split
      · simp
      · simp
    · intro row db2 h
      unfold Db.prodCreate at h
      rw [if_neg hcond, hnone] at h
      split at h
      · injection h with hfst hsnd
        exact Except.noConfusion hfst
      · injection h with hfst hsnd
        injection hfst with hrow
        subst hsnd
        subst hrow
        refine ⟨rfl, ?_⟩
        exact List.mem_append.mpr (Or.inr (List.mem_singleton.mpr rfl))
    · intro id row db2 h
      unfold Db.prodUpdate at h
      rw [if_neg hcond, hnone] at h
      split at h
      · injection h with hfst hsnd
        injection hfst with hrow
        subst hsnd
        subst hrow
        refine ⟨rfl, ?_⟩
        intro r hr
        have hr2 : r ∈ db.products.map (fun r0 =>
            if r0.id = id then
              { id := r0.id
                name := p.name
                price := p.price
                stock := p.stock
                categoryId := none }
            else r0) := hr
        rcases List.mem_map.mp hr2 with ⟨r0, hm0, hk⟩
        by_cases hid : r0.id = id
        · rw [if_pos hid] at hk
          subst hk
          intro _
          rfl
        · rw [if_neg hid] at hk
          subst hk
          intro hcontra
          exact absurd hcontra hid
      · injection h with hfst hsnd
        exact Except.noConfusion hfst
  · intro m id q hq
    have hcond : ¬ (q.categoryID > 0 ∧ ¬ m.categoryExists q.categoryID) :=
      fun hcontra => absurd hcontra.1 (by omega)
    constructor
    · unfold MockProdRepo.create
      split
      · simp
      · simp
    · unfold MockProdRepo.update
      split
      · simp
      · simp

/-- Witness for C10: creating a product with category reference 0 into the
sample relational state is not rejected as category-not-found, and the
stored row carries no category reference. -/
theorem c10_witness :
    (dbSample.prodCreate
      { name := "X", price := 1, stock := 1, categoryID := 0 }).1 ≠
        .error .categoryNotFound ∧
    ({ id := 4, name := "X", price := 1, stock := 1,
       categoryId := none } : ProdRow).categoryId = none :=
  ⟨(c10_theorem.1 dbSample
      { name := "X", price := 1, stock := 1, categoryID := 0 }
      (by decide)).1,
   ((c10_theorem.1 dbSample
      { name := "X", price := 1, stock := 1, categoryID := 0 }
      (by decide)).2.1
      { id := 4, name := "X", price := 1, stock := 1, categoryId := none }
      (dbSample.prodCreate
        { name := "X", price := 1, stock := 1, categoryID := 0 }).2
      rfl).1⟩
